import Mathlib

/-!
Verification model of eslint's flat config loader (`lib/config/config-loader.js`).

Modelling conventions:

* Absolute filesystem paths are lists of components (`List String`); `[]` is the
  filesystem root `/`.  A path argument that may be relative (JS strings handed to
  `path.resolve(cwd, ...)`) is a `PathArg`.
* Ignore patterns stay plain strings, because the source manipulates them with
  string operations (`startsWith("!")`, `slice(1)`, `path.posix.join`).  The string
  helpers below are structural-recursion reimplementations of the Node `path.posix`
  functions actually used, so that every definition evaluates in the kernel.
* Configuration objects are opaque: the model is parameterized by a type `C` of
  config objects.  A config file's default export is a single object or an array
  (`ConfigExport`), exactly the distinction `Array.isArray` makes in the source.
* Asynchrony is flattened to sequential state passing; fallible operations return
  `Except Err _` together with the updated state.  The external collaborators
  (filesystem, `import()`, `FlatConfigArray.normalize`) are an `Env` of functions.
* An event log (`ModState.events`) instruments the two observable effects the
  spec reasons about: invocations of the module loader (`loadConfigFile`) and
  runs of the layer builder (`calculateConfigArray`).
-/

namespace ESLintConfigLoader

/-- Decidable equality for `Except`, needed to evaluate the model's results on
concrete inputs. -/
instance instDecidableEqExcept {ε α : Type} [DecidableEq ε] [DecidableEq α] :
    DecidableEq (Except ε α)
  | Except.ok a, Except.ok b =>
      match decEq a b with
      | isTrue h => isTrue (by rw [h])
      | isFalse h => isFalse (fun hh => h (Except.ok.inj hh))
  | Except.error a, Except.error b =>
      match decEq a b with
      | isTrue h => isTrue (by rw [h])
      | isFalse h => isFalse (fun hh => h (Except.error.inj hh))
  | Except.ok _, Except.error _ => isFalse (fun hh => Except.noConfusion hh)
  | Except.error _, Except.ok _ => isFalse (fun hh => Except.noConfusion hh)

/-! ## String helpers for ignore patterns

These reimplement the handful of Node `path.posix` string operations used by
`calculateConfigArray` (lines 151-184 of `config-loader.js`) with structural
recursion over `String.data`, so that concrete instances reduce by `decide`. -/

/-- Split a string on `/` separators (components, including empty ones). -/
def splitSlashAux : List Char → List Char → List String
  | [], acc => [String.mk acc.reverse]
  | c :: cs, acc =>
      if c = '/' then String.mk acc.reverse :: splitSlashAux cs []
      else splitSlashAux cs (c :: acc)

def splitSlash (s : String) : List String :=
  splitSlashAux s.data []

/-- Join components with `/` (no normalization). -/
def joinWithSlash : List String → String
  | [] => ""
  | [p] => p
  | p :: q :: rest => p ++ "/" ++ joinWithSlash (q :: rest)

/-- One step of POSIX path normalization: drop empty and `.` components, let
`..` cancel a preceding real component (kept when there is nothing to cancel,
as in a relative path that escapes its root).  The accumulator is reversed. -/
def normStep (acc : List String) (part : String) : List String :=
  if part = "" || part = "." then acc
  else if part = ".." then
    match acc with
    | [] => [".."]
    | a :: rest => if a = ".." then ".." :: a :: rest else rest
  else part :: acc

/-- POSIX path normalization on components (`path.posix.normalize` semantics). -/
def normalizeParts (parts : List String) : List String :=
  (parts.foldl normStep []).reverse

def endsSlash (s : String) : Bool :=
  match s.data.getLast? with
  | some c => c = '/'
  | none => false

/-- Model of `path.posix.join(a, b)`: concatenate, then normalize; `"."` when the
result is empty; a trailing slash of `b` is preserved.  (Only ever applied to a
relative first argument here, which is the only way the source uses it.) -/
def posixJoin (a b : String) : String :=
  match normalizeParts (splitSlash a ++ splitSlash b) with
  | [] => "."
  | p :: rest =>
      if endsSlash b then joinWithSlash (p :: rest) ++ "/"
      else joinWithSlash (p :: rest)

/-- Model of `pattern.startsWith("!")`. -/
def startsBang (s : String) : Bool :=
  match s.data with
  | c :: _ => c = '!'
  | [] => false

/-- Model of `pattern.slice(1)`. -/
def dropFirstChar (s : String) : String :=
  match s.data with
  | [] => ""
  | _ :: cs => String.mk cs

/-! ## Component-level paths -/

/-- Longest-common-prefix removal: returns the two remainders. -/
def dropCommon : List String → List String → List String × List String
  | a :: as, b :: bs => if a = b then dropCommon as bs else (a :: as, b :: bs)
  | as, bs => (as, bs)

/-- Model of `path.relative(base, target)` for two absolute component paths:
`..` for every component of `base` past the common prefix, then the rest of
`target`. -/
def pathRelativeParts (base target : List String) : List String :=
  List.replicate (dropCommon base target).1.length ".." ++ (dropCommon base target).2

/-- The relative path as the forward-slash-joined string `path.relative` returns. -/
def pathRelativeStr (base target : List String) : String :=
  joinWithSlash (pathRelativeParts base target)

/-- A path argument that may be absolute or relative, as handed to
`path.resolve(cwd, ...)` by the source. -/
inductive PathArg where
  | abs (parts : List String)
  | rel (parts : List String)
deriving DecidableEq, Repr

/-- Model of `path.resolve(cwd, p)`: an absolute `p` stands alone, a relative
`p` is appended to `cwd`; the result is normalized and clamped at the root. -/
def resolvePath (cwd : List String) : PathArg → List String
  | PathArg.abs parts => (normalizeParts parts).dropWhile (fun p => p == "..")
  | PathArg.rel parts => (normalizeParts (cwd ++ parts)).dropWhile (fun p => p == "..")

/-! ## Upward search -/

/-- The candidate config filenames (`FLAT_CONFIG_FILENAMES`, lines 40-44). -/
def FLAT_CONFIG_FILENAMES : List String :=
  ["eslint.config.js", "eslint.config.mjs", "eslint.config.cjs"]

/-- Modelled from the spec: the external `find-up` package invoked by
`#locateConfigFileToUse` is a dependency, not part of this repository.  Spec 4.1:
"search upward from `directory` through each ancestor directory (inclusive) for
the first existing file matching a fixed ordered list of candidate filenames;
the first match wins."  This worker receives the directory components in
reverse order so the recursion is structural. -/
def findUpRev (fileExists : List String → Bool) : List String → Option (List String)
  | [] =>
      match FLAT_CONFIG_FILENAMES.find? (fun name => fileExists [name]) with
      | some name => some [name]
      | none => none
  | c :: rest =>
      match FLAT_CONFIG_FILENAMES.find? (fun name => fileExists ((c :: rest).reverse ++ [name])) with
      | some name => some ((c :: rest).reverse ++ [name])
      | none => findUpRev fileExists rest

/-- Modelled from the spec: `findUp(FLAT_CONFIG_FILENAMES, { cwd: dir })`. -/
def findUpFrom (fileExists : List String → Bool) (dir : List String) : Option (List String) :=
  findUpRev fileExists dir.reverse

/-- All ancestor directories of `dir`, inclusive, down to the root (worker on
reversed components). -/
def ancestorsRev : List String → List (List String)
  | [] => [[]]
  | c :: rest => (c :: rest).reverse :: ancestorsRev rest

/-- All ancestor directories of `dir`, inclusive, ending with the root `[]`. -/
def ancestors (dir : List String) : List (List String) :=
  ancestorsRev dir.reverse

/-! ## Data model -/

/-- A config file's default export (or an `overrideConfig` value): a single
config object or an array of them — the distinction `Array.isArray` draws. -/
inductive ConfigExport (C : Type) where
  | single (c : C)
  | array (cs : List C)
deriving DecidableEq, Repr

/-- One element pushed into the `FlatConfigArray`: an opaque config object, or
the literal `{ ignores: ... }` object built for CLI ignore patterns (line 181). -/
inductive Layer (C : Type) where
  | config (c : C)
  | ignores (patterns : List String)
deriving DecidableEq, Repr

/-- The errors this core can surface (spec section 7), plus passthrough failures
from the external collaborators (`fs.stat`, module execution, normalization). -/
inductive Err where
  | configFileMissing
  | notFound
  | statFailure
  | moduleFailure
  | normalizeFailure
deriving DecidableEq, Repr

/-- The `configFilePath` constructor option: `string | false | undefined`. -/
inductive OverrideSetting where
  | path (p : PathArg)
  | disabled
  | search
deriving DecidableEq, Repr

/-- `ConfigLoaderOptions` (lines 26-34).  `Option` models an absent (`undefined`)
value; `baseConfig || []` and the `defaultConfigs = []` destructuring default are
applied at use sites, as in the source.  `ignoreEnabled` only parameterizes the
external `FlatConfigArray` (`shouldIgnore`) and is carried for completeness. -/
structure LoaderOptions (C : Type) where
  cwd : List String
  configFilePath : OverrideSetting
  ignoreEnabled : Bool
  baseConfig : Option (List C)
  defaultConfigs : Option (List C)
  ignorePatterns : Option (List String)
  overrideConfig : Option (ConfigExport C)

/-- External collaborators: filesystem existence (for the upward search),
`fs.stat` modification times, module execution (`import()` keyed by path and
mtime query, `none` = the module threw), and `FlatConfigArray.normalize`
(`false` = validation failure). -/
structure Env (C : Type) where
  fileExists : List String → Bool
  mtimeOf : List String → Option Nat
  importModule : List String → Nat → Option (ConfigExport C)
  normalizeOk : List (Layer C) → Bool

/-- Instrumentation events: each invocation of `loadConfigFile` (the module
loader) and each run of the layer builder `calculateConfigArray`, keyed the way
the `#configArrays` cache is keyed. -/
inductive Event where
  | load (path : List String)
  | build (key : Option (List String))
deriving DecidableEq, Repr

/-- Process-wide / instrumentation state: the module-loader's
`importedConfigFileModificationTime` map (line 46) and the event log. -/
structure ModState where
  mtimes : List (List String × Nat)
  events : List Event
deriving DecidableEq, Repr

def ModState.initial : ModState := ⟨[], []⟩

/-- Association-list lookup (first binding wins, like `Map.get` after our
prepend-only `Map.set`, which is only ever called on missing keys). -/
def lookupA {α β : Type} [DecidableEq α] : List (α × β) → α → Option β
  | [], _ => none
  | (k', v) :: rest, k => if k' = k then some v else lookupA rest k

/-- Association-list insert, modelling `Map.set` on a key known to be absent. -/
def insertA {α β : Type} (l : List (α × β)) (k : α) (v : β) : List (α × β) :=
  (k, v) :: l

/-! ## SourceModuleLoader: `loadConfigFile` (lines 66-110) -/

/-- Model of `loadConfigFile`: stat the file for its mtime, import the module
keyed by path and mtime (the `mtime` URL query), record the new mtime in the
process-wide map.  The conditional `delete require.cache[filePath]` has no
observable in-model effect beyond the `(path, mtime)` keying of `importModule`.
Each invocation is logged as an `Event.load`. -/
def loadConfigFile {C : Type} (env : Env C) (ms : ModState) (filePath : List String) :
    Except Err (ConfigExport C) × ModState :=
  let ms1 : ModState := { ms with events := ms.events ++ [Event.load filePath] }
  match env.mtimeOf filePath with
  | none => (Except.error Err.statFailure, ms1)
  | some mtime =>
      match env.importModule filePath mtime with
      | none => (Except.error Err.moduleFailure, ms1)
      | some config =>
          (Except.ok config, { ms1 with mtimes := insertA ms1.mtimes filePath mtime })

/-! ## LayerBuilder: `calculateConfigArray` (lines 119-197) -/

/-- The push of a single-or-array value into the config array: the
`Array.isArray` spread on lines 140-144 (file config) and 187-191 (override). -/
def pushExport {C : Type} (configs : List (Layer C)) : Option (ConfigExport C) → List (Layer C)
  | none => configs
  | some (ConfigExport.single c) => configs ++ [Layer.config c]
  | some (ConfigExport.array cs) => configs ++ cs.map Layer.config

/-- The ignore-pattern rewrite on lines 168-174: remember a leading `!`, strip
it, join the pattern onto the relative path with `path.posix.join`, restore the
marker. -/
def rebasePattern (relativeIgnorePath : String) (pattern : String) : String :=
  let negated := startsBang pattern
  let basePattern := if negated then dropFirstChar pattern else pattern
  (if negated then "!" else "") ++ posixJoin relativeIgnorePath basePattern

/-- The CLI ignore-pattern layer of lines 151-184: nothing when the pattern list
is absent or empty; otherwise one `{ ignores: ... }` layer, with every pattern
rebased by `path.relative(basePath, cwd)` when `basePath` differs from `cwd`. -/
def cliIgnoreLayers {C : Type} (cwd basePath : List String)
    (ignorePatterns : Option (List String)) : List (Layer C) :=
  match ignorePatterns with
  | none => []
  | some ps =>
      if ps.length > 0 then
        [Layer.ignores
          (if basePath = cwd then ps
           else ps.map (rebasePattern (pathRelativeStr basePath cwd)))]
      else []

/-- The sequence of pushes of `calculateConfigArray` (lines 132-192): seed with
`baseConfig || []`, push the file export (when a file was loaded), push
`defaultConfigs`, push the CLI ignore layer, push `overrideConfig`. -/
def assembleLayers {C : Type} (options : LoaderOptions C) (basePath : List String)
    (fileConfig : Option (ConfigExport C)) : List (Layer C) :=
  pushExport
    (pushExport ((options.baseConfig.getD []).map Layer.config) fileConfig
      ++ (options.defaultConfigs.getD []).map Layer.config
      ++ cliIgnoreLayers options.cwd basePath options.ignorePatterns)
    options.overrideConfig

/-- Model of the module-level `calculateConfigArray` (lines 119-197): load the
config file when `configFilePath` is present, assemble the layer sequence, then
run the external `normalize` collaborator.  Failures of the load or of
normalization propagate unmodified. -/
def calculateConfigArray {C : Type} (env : Env C) (ms : ModState)
    (configFilePath : Option (List String)) (basePath : List String)
    (options : LoaderOptions C) : Except Err (List (Layer C)) × ModState :=
  match configFilePath with
  | some p =>
      match loadConfigFile env ms p with
      | (Except.error e, ms1) => (Except.error e, ms1)
      | (Except.ok fileConfig, ms1) =>
          let configs := assembleLayers options basePath (some fileConfig)
          if env.normalizeOk configs then (Except.ok configs, ms1)
          else (Except.error Err.normalizeFailure, ms1)
  | none =>
      let configs := assembleLayers options basePath none
      if env.normalizeOk configs then (Except.ok configs, ms)
      else (Except.error Err.normalizeFailure, ms)

/-! ## ConfigLoader (lines 208-432) -/

/-- The `{ configFilePath, basePath }` record produced by
`#locateConfigFileToUse`.  `configFilePath = none` models `undefined`
(override disabled). -/
structure ResolvedLocation where
  configFilePath : Option (List String)
  basePath : List String
deriving DecidableEq, Repr

/-- Per-instance state of a `ConfigLoader`: the `#configArrays` cache keyed by
config file path (a `Map` whose key may be `undefined`), the `#configFilePaths`
cache keyed by absolute directory, and the shared module-loader state. -/
structure LoaderState (C : Type) where
  configArrays : List (Option (List String) × List (Layer C))
  configFilePaths : List (List String × ResolvedLocation)
  mod : ModState
deriving DecidableEq, Repr

def LoaderState.initial {C : Type} : LoaderState C :=
  ⟨[], [], ModState.initial⟩

/-- Append a build event for the `#configArrays` key about to be built. -/
def recordBuild (ms : ModState) (key : Option (List String)) : ModState :=
  { ms with events := ms.events ++ [Event.build key] }

/-- Model of `ConfigLoader.#locateConfigFileToUse` (lines 245-289): cached per
absolute directory; an explicit override path resolves against `cwd` with
`basePath = cwd`; `configFilePath: false` leaves the source path `undefined`
with `basePath = cwd`; otherwise search upward with `findUp`, failing with the
`config-file-missing` error when nothing is found, and on success the base path
is the directory containing the found file. -/
def ConfigLoader.locateConfigFileToUse {C : Type} (env : Env C) (options : LoaderOptions C)
    (st : LoaderState C) (fromDirectory : List String) :
    Except Err ResolvedLocation × LoaderState C :=
  match lookupA st.configFilePaths fromDirectory with
  | some loc => (Except.ok loc, st)
  | none =>
      match options.configFilePath with
      | OverrideSetting.path p =>
          let loc : ResolvedLocation := ⟨some (resolvePath options.cwd p), options.cwd⟩
          (Except.ok loc,
            { st with configFilePaths := insertA st.configFilePaths fromDirectory loc })
      | OverrideSetting.disabled =>
          let loc : ResolvedLocation := ⟨none, options.cwd⟩
          (Except.ok loc,
            { st with configFilePaths := insertA st.configFilePaths fromDirectory loc })
      | OverrideSetting.search =>
          match findUpFrom env.fileExists fromDirectory with
          | none => (Except.error Err.configFileMissing, st)
          | some found =>
              let loc : ResolvedLocation :=
                ⟨some found, resolvePath options.cwd (PathArg.abs found.dropLast)⟩
              (Except.ok loc,
                { st with configFilePaths := insertA st.configFilePaths fromDirectory loc })

/-- Model of the private method `ConfigLoader.#calculateConfigArray`
(lines 297-310): return the `#configArrays` entry when present, otherwise run
the module-level builder and cache the result under `configFilePath`.  Renamed
with a `Cached` suffix because Lean cannot shadow the module-level
`calculateConfigArray` the way the JS private method does. -/
def ConfigLoader.calculateConfigArrayCached {C : Type} (env : Env C)
    (options : LoaderOptions C) (st : LoaderState C)
    (configFilePath : Option (List String)) (basePath : List String) :
    Except Err (List (Layer C)) × LoaderState C :=
  match lookupA st.configArrays configFilePath with
  | some configs => (Except.ok configs, st)
  | none =>
      match calculateConfigArray env (recordBuild st.mod configFilePath) configFilePath
          basePath options with
      | (Except.error e, ms1) => (Except.error e, { st with mod := ms1 })
      | (Except.ok configs, ms1) =>
          (Except.ok configs,
            { st with configArrays := insertA st.configArrays configFilePath configs
                      mod := ms1 })

/-- Model of `ConfigLoader.findConfigFileForDirectory` (lines 337-345): resolve
the directory against `cwd`, locate, and return only the config file path. -/
def ConfigLoader.findConfigFileForDirectory {C : Type} (env : Env C)
    (options : LoaderOptions C) (st : LoaderState C) (dirPath : PathArg) :
    Except Err (Option (List String)) × LoaderState C :=
  match ConfigLoader.locateConfigFileToUse env options st (resolvePath options.cwd dirPath) with
  | (Except.error e, st') => (Except.error e, st')
  | (Except.ok loc, st') => (Except.ok loc.configFilePath, st')

/-- Model of `ConfigLoader.loadConfigArrayForDirectory` (lines 372-383): resolve
the directory against `cwd`, locate, then build-or-fetch the cached config
array for the resolved location. -/
def ConfigLoader.loadConfigArrayForDirectory {C : Type} (env : Env C)
    (options : LoaderOptions C) (st : LoaderState C) (dirPath : PathArg) :
    Except Err (List (Layer C)) × LoaderState C :=
  match ConfigLoader.locateConfigFileToUse env options st (resolvePath options.cwd dirPath) with
  | (Except.error e, st') => (Except.error e, st')
  | (Except.ok loc, st') =>
      ConfigLoader.calculateConfigArrayCached env options st' loc.configFilePath loc.basePath

/-- Model of `ConfigLoader.getCachedConfigArrayForDirectory` (lines 417-430):
synchronous; throws (`Err.notFound`) when `#configFilePaths` has no entry for
the absolute directory, otherwise returns `#configArrays.get(configFilePath)` —
which is `undefined` (`none`) when that build never ran. -/
def ConfigLoader.getCachedConfigArrayForDirectory {C : Type} (options : LoaderOptions C)
    (st : LoaderState C) (dirPath : PathArg) :
    Except Err (Option (List (Layer C))) :=
  match lookupA st.configFilePaths (resolvePath options.cwd dirPath) with
  | none => Except.error Err.notFound
  | some loc => Except.ok (lookupA st.configArrays loc.configFilePath)

/-! ## LegacyConfigLoader (lines 438-607) -/

/-- Per-instance state of a `LegacyConfigLoader`: one shared location
(`#configFilePath`) and one shared config array (`#configArray`), plus the
shared module-loader state. -/
structure LegacyState (C : Type) where
  configFilePath : Option ResolvedLocation
  configArray : Option (List (Layer C))
  mod : ModState
deriving DecidableEq, Repr

def LegacyState.initial {C : Type} : LegacyState C :=
  ⟨none, none, ModState.initial⟩

/-- Model of `LegacyConfigLoader.#locateConfigFileToUse` (lines 476-520): the
same three-way branch as `ConfigLoader`, but the cache is a single slot shared
by every directory. -/
def LegacyConfigLoader.locateConfigFileToUse {C : Type} (env : Env C)
    (options : LoaderOptions C) (st : LegacyState C) (fromDirectory : List String) :
    Except Err ResolvedLocation × LegacyState C :=
  match st.configFilePath with
  | some loc => (Except.ok loc, st)
  | none =>
      match options.configFilePath with
      | OverrideSetting.path p =>
          let loc : ResolvedLocation := ⟨some (resolvePath options.cwd p), options.cwd⟩
          (Except.ok loc, { st with configFilePath := some loc })
      | OverrideSetting.disabled =>
          let loc : ResolvedLocation := ⟨none, options.cwd⟩
          (Except.ok loc, { st with configFilePath := some loc })
      | OverrideSetting.search =>
          match findUpFrom env.fileExists fromDirectory with
          | none => (Except.error Err.configFileMissing, st)
          | some found =>
              let loc : ResolvedLocation :=
                ⟨some found, resolvePath options.cwd (PathArg.abs found.dropLast)⟩
              (Except.ok loc, { st with configFilePath := some loc })

/-- Model of `LegacyConfigLoader.#calculateConfigArray` (lines 528-541): one
shared slot, filled by the first build. -/
def LegacyConfigLoader.calculateConfigArrayCached {C : Type} (env : Env C)
    (options : LoaderOptions C) (st : LegacyState C)
    (configFilePath : Option (List String)) (basePath : List String) :
    Except Err (List (Layer C)) × LegacyState C :=
  match st.configArray with
  | some configs => (Except.ok configs, st)
  | none =>
      match calculateConfigArray env (recordBuild st.mod configFilePath) configFilePath
          basePath options with
      | (Except.error e, ms1) => (Except.error e, { st with mod := ms1 })
      | (Except.ok configs, ms1) =>
          (Except.ok configs, { st with configArray := some configs, mod := ms1 })

/-- Model of `LegacyConfigLoader.findConfigFileForDirectory` (lines 553-561). -/
def LegacyConfigLoader.findConfigFileForDirectory {C : Type} (env : Env C)
    (options : LoaderOptions C) (st : LegacyState C) (dirPath : PathArg) :
    Except Err (Option (List String)) × LegacyState C :=
  match LegacyConfigLoader.locateConfigFileToUse env options st
      (resolvePath options.cwd dirPath) with
  | (Except.error e, st') => (Except.error e, st')
  | (Except.ok loc, st') => (Except.ok loc.configFilePath, st')

/-- Model of `LegacyConfigLoader.loadConfigArrayForDirectory` (lines 571-582). -/
def LegacyConfigLoader.loadConfigArrayForDirectory {C : Type} (env : Env C)
    (options : LoaderOptions C) (st : LegacyState C) (dirPath : PathArg) :
    Except Err (List (Layer C)) × LegacyState C :=
  match LegacyConfigLoader.locateConfigFileToUse env options st
      (resolvePath options.cwd dirPath) with
  | (Except.error e, st') => (Except.error e, st')
  | (Except.ok loc, st') =>
      LegacyConfigLoader.calculateConfigArrayCached env options st' loc.configFilePath
        loc.basePath

/-- Model of `LegacyConfigLoader.getCachedConfigArrayForDirectory`
(lines 596-606): throws (`Err.notFound`) whenever the shared `#configArray`
slot is still empty, even if the location was already resolved. -/
def LegacyConfigLoader.getCachedConfigArrayForDirectory {C : Type}
    (st : LegacyState C) (dirPath : PathArg) : Except Err (List (Layer C)) :=
  match st.configArray with
  | none =>
      let _ := dirPath
      Except.error Err.notFound
  | some configs => Except.ok configs

/-! ## Claim-side definitions

`specLayerSequence` restates the layer order in the words of the specification
(spec section 4.3 / claim C1), independently of the builder's push sequence:
base layers first, then the file-derived layer(s) (each array element in order,
the single value otherwise, nothing without a source path), then the default
layers, then one layer of (possibly rebased) CLI ignore patterns when that list
is non-empty, then the override layer(s) last. -/

def specLayerSequence {C : Type} (options : LoaderOptions C)
    (fileExport : Option (ConfigExport C)) (basePath : List String) : List (Layer C) :=
  ((options.baseConfig.getD []).map Layer.config)
    ++ (match fileExport with
        | none => []
        | some (ConfigExport.single c) => [Layer.config c]
        | some (ConfigExport.array cs) => cs.map Layer.config)
    ++ ((options.defaultConfigs.getD []).map Layer.config)
    ++ (match options.ignorePatterns with
        | none => []
        | some ps =>
            if ps.length > 0 then
              [Layer.ignores
                (if basePath = options.cwd then ps
                 else ps.map (rebasePattern (pathRelativeStr basePath options.cwd)))]
            else [])
    ++ (match options.overrideConfig with
        | none => []
        | some (ConfigExport.single c) => [Layer.config c]
        | some (ConfigExport.array cs) => cs.map Layer.config)

/-- Number of builder runs recorded for a given `#configArrays` key. -/
def buildCount (key : Option (List String)) (events : List Event) : Nat :=
  events.countP (fun e => decide (e = Event.build key))

def exceptOk {ε α : Type} : Except ε α → Bool
  | Except.ok _ => true
  | Except.error _ => false

/-! ## Call traces

A trace of public asynchronous calls against one `ConfigLoader` instance, used
to talk about what "was ever called" on the instance.  Each call carries the
environment it observed, so the filesystem may differ between calls. -/

inductive ApiCall (C : Type) where
  | loadForDirectory (env : Env C) (dirPath : PathArg)
  | findForDirectory (env : Env C) (dirPath : PathArg)

def ApiCall.dirPath {C : Type} : ApiCall C → PathArg
  | ApiCall.loadForDirectory _ d => d
  | ApiCall.findForDirectory _ d => d

def ApiCall.env {C : Type} : ApiCall C → Env C
  | ApiCall.loadForDirectory e _ => e
  | ApiCall.findForDirectory e _ => e

/-- The state after one public call (its result is discarded). -/
def stepCall {C : Type} (options : LoaderOptions C) (st : LoaderState C) :
    ApiCall C → LoaderState C
  | ApiCall.loadForDirectory env d =>
      (ConfigLoader.loadConfigArrayForDirectory env options st d).2
  | ApiCall.findForDirectory env d =>
      (ConfigLoader.findConfigFileForDirectory env options st d).2

/-- The state after a whole trace of public calls. -/
def runTrace {C : Type} (options : LoaderOptions C) (st : LoaderState C) :
    List (ApiCall C) → LoaderState C
  | [] => st
  | c :: rest => runTrace options (stepCall options st c) rest

/-- The call targets absolute directory `k` and its location resolution
succeeds from state `st`. -/
def callResolves {C : Type} (options : LoaderOptions C) (st : LoaderState C)
    (c : ApiCall C) (k : List String) : Prop :=
  resolvePath options.cwd c.dirPath = k ∧
    exceptOk (ConfigLoader.locateConfigFileToUse c.env options st
      (resolvePath options.cwd c.dirPath)).1 = true

/-- Some call of the trace successfully resolves the location for absolute
directory `k` (at the state the instance had reached when that call ran). -/
def TraceResolves {C : Type} (options : LoaderOptions C) :
    LoaderState C → List (ApiCall C) → List String → Prop
  | _, [], _ => False
  | st, c :: rest, k =>
      callResolves options st c k ∨ TraceResolves options (stepCall options st c) rest k

/-! ## Concrete instances used by witnesses and counterexamples

A project rooted at `/proj` whose config file `/proj/eslint.config.js` exports
the single config object `7` (config objects are just `Nat` here). -/

def sampleEnv : Env Nat :=
  { fileExists := fun p => decide (p = ["proj", "eslint.config.js"])
  , mtimeOf := fun _ => some 1
  , importModule := fun p _ =>
      if p = ["proj", "eslint.config.js"] then some (ConfigExport.single 7) else none
  , normalizeOk := fun _ => true }

/-- An environment in which every external operation fails. -/
def failEnv : Env Nat :=
  { fileExists := fun _ => false
  , mtimeOf := fun _ => none
  , importModule := fun _ _ => none
  , normalizeOk := fun _ => false }

def sampleOptions : LoaderOptions Nat :=
  { cwd := ["proj"]
  , configFilePath := OverrideSetting.search
  , ignoreEnabled := true
  , baseConfig := some [1]
  , defaultConfigs := some [2]
  , ignorePatterns := some ["dist/**", "!keep.js"]
  , overrideConfig := some (ConfigExport.single 9) }

def overridePathOptions : LoaderOptions Nat :=
  { sampleOptions with configFilePath := OverrideSetting.path (PathArg.rel ["conf", "my.config.js"]) }

def disabledOptions : LoaderOptions Nat :=
  { sampleOptions with configFilePath := OverrideSetting.disabled }

/-- The layer sequence the sample project builds. -/
def sampleLayers : List (Layer Nat) :=
  [Layer.config 1, Layer.config 7, Layer.config 2,
   Layer.ignores ["dist/**", "!keep.js"], Layer.config 9]

/-- The loader state after `loadConfigArrayForDirectory` for `/proj/sub` on a
fresh instance of the sample project. -/
def sampleStateSub : LoaderState Nat :=
  ⟨[(some ["proj", "eslint.config.js"], sampleLayers)],
   [(["proj", "sub"], ⟨some ["proj", "eslint.config.js"], ["proj"]⟩)],
   ⟨[(["proj", "eslint.config.js"], 1)],
    [Event.build (some ["proj", "eslint.config.js"]),
     Event.load ["proj", "eslint.config.js"]]⟩⟩

/-- The loader state after `loadConfigArrayForDirectory` for `/proj/a` on a
fresh instance of the sample project. -/
def sampleStateA : LoaderState Nat :=
  ⟨[(some ["proj", "eslint.config.js"], sampleLayers)],
   [(["proj", "a"], ⟨some ["proj", "eslint.config.js"], ["proj"]⟩)],
   ⟨[(["proj", "eslint.config.js"], 1)],
    [Event.build (some ["proj", "eslint.config.js"]),
     Event.load ["proj", "eslint.config.js"]]⟩⟩

/-- The loader state after a build attempt for `/proj/eslint.config.js` failed
(stat failure): both caches still empty, only the event log grew. -/
def failedBuildState : LoaderState Nat :=
  ⟨[], [],
   ⟨[], [Event.build (some ["proj", "eslint.config.js"]),
         Event.load ["proj", "eslint.config.js"]]⟩⟩

/-- The module state after the failed build above was retried successfully. -/
def retriedModState : ModState :=
  ⟨[(["proj", "eslint.config.js"], 1)],
   [Event.build (some ["proj", "eslint.config.js"]),
    Event.load ["proj", "eslint.config.js"],
    Event.build (some ["proj", "eslint.config.js"]),
    Event.load ["proj", "eslint.config.js"]]⟩

/-- The loader state after only `findConfigFileForDirectory` for `/proj` ran on
a fresh instance: location resolved, no layer sequence built. -/
def findOnlyState : LoaderState Nat :=
  ⟨[], [(["proj"], ⟨some ["proj", "eslint.config.js"], ["proj"]⟩)], ModState.initial⟩

/-- The legacy loader state after only `findConfigFileForDirectory` ran. -/
def legacyFindOnlyState : LegacyState Nat :=
  ⟨some ⟨some ["proj", "eslint.config.js"], ["proj"]⟩, none, ModState.initial⟩

/-! ## Helper lemmas -/

@[simp] theorem lookupA_nil {α β : Type} [DecidableEq α] (k : α) :
    lookupA ([] : List (α × β)) k = none := rfl

@[simp] theorem lookupA_insertA {α β : Type} [DecidableEq α]
    (l : List (α × β)) (k k' : α) (v : β) :
    lookupA (insertA l k v) k' = if k = k' then some v else lookupA l k' := rfl

/-- The builder's push sequence coincides with the spec-worded layer order. -/
theorem assembleLayers_eq_spec {C : Type} (options : LoaderOptions C)
    (basePath : List String) (fe : Option (ConfigExport C)) :
    assembleLayers options basePath fe = specLayerSequence options fe basePath := by
  rcases fe with _ | (c | cs) <;>
    rcases ho : options.overrideConfig with _ | (oc | ocs) <;>
      rcases hi : options.ignorePatterns with _ | ps <;>
        simp [assembleLayers, specLayerSequence, pushExport, cliIgnoreLayers, ho, hi,
          List.append_assoc]

/-- C1: for every `LoaderOptions` and every resolved location, the layer
sequence built by the layer builder contains, in this order before
normalization: the `baseConfig` layer(s) first, then the layer(s) derived from
the config source file (each element in order when the export is an array, the
single value otherwise; nothing when the source path is absent), then the
`defaultConfigs` layer(s), then one layer holding the (possibly rebased) CLI
ignore patterns when that list is non-empty, and the `overrideConfig` layer(s)
last. -/
theorem C1_layer_order {C : Type} (env : Env C) (ms : ModState) (basePath : List String)
    (options : LoaderOptions C) :
    (env.normalizeOk (specLayerSequence options none basePath) = true →
        calculateConfigArray env ms none basePath options
          = (Except.ok (specLayerSequence options none basePath), ms))
      ∧ ∀ p e ms1, loadConfigFile env ms p = (Except.ok e, ms1) →
          env.normalizeOk (specLayerSequence options (some e) basePath) = true →
          calculateConfigArray env ms (some p) basePath options
            = (Except.ok (specLayerSequence options (some e) basePath), ms1) := by
  constructor
  · intro h
    simp [calculateConfigArray, assembleLayers_eq_spec, h]
  · intro p e ms1 hload h
    simp [calculateConfigArray, hload, assembleLayers_eq_spec, h]

theorem C1_layer_order_witness :
    calculateConfigArray sampleEnv ModState.initial none ["proj"] sampleOptions
        = (Except.ok (specLayerSequence sampleOptions none ["proj"]), ModState.initial)
    ∧ calculateConfigArray sampleEnv ModState.initial (some ["proj", "eslint.config.js"])
          ["proj"] sampleOptions
        = (Except.ok (specLayerSequence sampleOptions (some (ConfigExport.single 7)) ["proj"]),
            ⟨[(["proj", "eslint.config.js"], 1)], [Event.load ["proj", "eslint.config.js"]]⟩) :=
  ⟨(C1_layer_order sampleEnv ModState.initial ["proj"] sampleOptions).1 (by decide),
   (C1_layer_order sampleEnv ModState.initial ["proj"] sampleOptions).2
     ["proj", "eslint.config.js"] (ConfigExport.single 7)
     ⟨[(["proj", "eslint.config.js"], 1)], [Event.load ["proj", "eslint.config.js"]]⟩
     (by decide) (by decide)⟩

/-- C2: when `basePath = cwd` the CLI ignore patterns are appended unchanged as
one layer; when `basePath ≠ cwd` every pattern is rewritten by joining it onto
the forward-slash relative path from `basePath` to `cwd`, preserving a leading
`!` marker; concretely, with `basePath = /proj` and `cwd = /proj/sub`,
`"dist/**"` becomes `"sub/dist/**"` and `"!keep.js"` becomes `"!sub/keep.js"`. -/
theorem C2_ignore_rebasing (C : Type) (cwd basePath : List String) (ps : List String)
    (hps : ps ≠ []) :
    cliIgnoreLayers (C := C) cwd cwd (some ps) = [Layer.ignores ps]
    ∧ (basePath ≠ cwd →
        cliIgnoreLayers (C := C) cwd basePath (some ps)
          = [Layer.ignores (ps.map (rebasePattern (pathRelativeStr basePath cwd)))])
    ∧ rebasePattern (pathRelativeStr ["proj"] ["proj", "sub"]) "dist/**" = "sub/dist/**"
    ∧ rebasePattern (pathRelativeStr ["proj"] ["proj", "sub"]) "!keep.js" = "!sub/keep.js" := by
  have hlen : ps.length > 0 := List.length_pos.mpr hps
  refine ⟨?_, ?_, by decide, by decide⟩
  · simp [cliIgnoreLayers, hlen]
  · intro hne
    simp [cliIgnoreLayers, hlen, hne]

/-! Cache and event-log lemmas about the two private `ConfigLoader` methods. -/

theorem loadConfigFile_events {C : Type} (env : Env C) (ms : ModState) (p : List String) :
    ((loadConfigFile env ms p).2).events = ms.events ++ [Event.load p] := by
  simp only [loadConfigFile]
  split
  · rfl
  · split <;> rfl

theorem buildCount_append (k : Option (List String)) (l1 l2 : List Event) :
    buildCount k (l1 ++ l2) = buildCount k l1 + buildCount k l2 := by
  simp [buildCount, List.countP_append]

theorem buildCount_load (k : Option (List String)) (p : List String) :
    buildCount k [Event.load p] = 0 := rfl

theorem buildCount_build_le (k k' : Option (List String)) :
    buildCount k' [Event.build k] ≤ 1 := by
  by_cases h : k = k' <;> simp [buildCount, List.countP_cons, h]

theorem calculateConfigArray_buildCount {C : Type} (env : Env C) (ms : ModState)
    (cfp : Option (List String)) (bp : List String) (o : LoaderOptions C)
    (k' : Option (List String)) :
    buildCount k' ((calculateConfigArray env ms cfp bp o).2).events
      = buildCount k' ms.events := by
  rcases cfp with _ | p
  · simp only [calculateConfigArray]
    split <;> rfl
  · rcases hl : loadConfigFile env ms p with ⟨r, ms1⟩
    have hev : ms1.events = ms.events ++ [Event.load p] := by
      have h := loadConfigFile_events env ms p
      rw [hl] at h
      exact h
    rcases r with e | fileConfig
    · simp only [calculateConfigArray, hl]
      simp [hev, buildCount_append, buildCount_load]
    · simp only [calculateConfigArray, hl]
      split <;> simp [hev, buildCount_append, buildCount_load]

theorem locate_error_state {C : Type} {env : Env C} {options : LoaderOptions C}
    {st st' : LoaderState C} {d : List String} {e : Err}
    (h : ConfigLoader.locateConfigFileToUse env options st d = (Except.error e, st')) :
    st' = st := by
  unfold ConfigLoader.locateConfigFileToUse at h
  split at h
  · simp at h
  · split at h
    · simp at h
    · simp at h
    · split at h
      · simp at h
        exact h.2.symm
      · simp at h

theorem locate_ok_lookup {C : Type} {env : Env C} {options : LoaderOptions C}
    {st st' : LoaderState C} {d : List String} {loc : ResolvedLocation}
    (h : ConfigLoader.locateConfigFileToUse env options st d = (Except.ok loc, st')) :
    lookupA st'.configFilePaths d = some loc := by
  unfold ConfigLoader.locateConfigFileToUse at h
  split at h
  · next loc' hl =>
      simp at h
      rw [← h.2, ← h.1]
      exact hl
  · split at h
    · simp at h
      rw [← h.2, ← h.1]
      simp
    · simp at h
      rw [← h.2, ← h.1]
      simp
    · split at h
      · simp at h
      · simp at h
        rw [← h.2, ← h.1]
        simp

theorem locate_configArrays {C : Type} (env : Env C) (options : LoaderOptions C)
    (st : LoaderState C) (d : List String) :
    ((ConfigLoader.locateConfigFileToUse env options st d).2).configArrays
      = st.configArrays := by
  unfold ConfigLoader.locateConfigFileToUse
  split
  · rfl
  · split
    · rfl
    · rfl
    · split <;> rfl

theorem locate_mod {C : Type} (env : Env C) (options : LoaderOptions C)
    (st : LoaderState C) (d : List String) :
    ((ConfigLoader.locateConfigFileToUse env options st d).2).mod = st.mod := by
  unfold ConfigLoader.locateConfigFileToUse
  split
  · rfl
  · split
    · rfl
    · rfl
    · split <;> rfl

theorem calcCached_configFilePaths {C : Type} (env : Env C) (options : LoaderOptions C)
    (st : LoaderState C) (k : Option (List String)) (bp : List String) :
    ((ConfigLoader.calculateConfigArrayCached env options st k bp).2).configFilePaths
      = st.configFilePaths := by
  unfold ConfigLoader.calculateConfigArrayCached
  split
  · rfl
  · split <;> rfl

theorem calcCached_hit {C : Type} (env : Env C) (options : LoaderOptions C)
    (st : LoaderState C) (k : Option (List String)) (bp : List String)
    (a : List (Layer C)) (h : lookupA st.configArrays k = some a) :
    ConfigLoader.calculateConfigArrayCached env options st k bp = (Except.ok a, st) := by
  unfold ConfigLoader.calculateConfigArrayCached
  rw [h]

theorem calcCached_ok_lookup {C : Type} {env : Env C} {options : LoaderOptions C}
    {st st' : LoaderState C} {k : Option (List String)} {bp : List String}
    {a : List (Layer C)}
    (h : ConfigLoader.calculateConfigArrayCached env options st k bp = (Except.ok a, st')) :
    lookupA st'.configArrays k = some a := by
  unfold ConfigLoader.calculateConfigArrayCached at h
  split at h
  · next a' hl =>
      simp at h
      rw [← h.2, ← h.1]
      exact hl
  · split at h
    · simp at h
    · next configs ms1 heq =>
        simp at h
        rw [← h.2, ← h.1]
        simp

theorem calcCached_error {C : Type} {env : Env C} {options : LoaderOptions C}
    {st st' : LoaderState C} {k : Option (List String)} {bp : List String} {e : Err}
    (h : ConfigLoader.calculateConfigArrayCached env options st k bp = (Except.error e, st')) :
    st'.configArrays = st.configArrays ∧ st'.configFilePaths = st.configFilePaths
      ∧ lookupA st.configArrays k = none := by
  unfold ConfigLoader.calculateConfigArrayCached at h
  split at h
  · simp at h
  · next hl =>
      split at h
      · simp at h
        refine ⟨?_, ?_, hl⟩ <;> rw [← h.2]
      · simp at h

theorem calcCached_buildCount {C : Type} (env : Env C) (options : LoaderOptions C)
    (st : LoaderState C) (k : Option (List String)) (bp : List String)
    (k' : Option (List String)) :
    buildCount k' (((ConfigLoader.calculateConfigArrayCached env options st k bp).2).mod).events
      ≤ buildCount k' st.mod.events + 1 := by
  unfold ConfigLoader.calculateConfigArrayCached
  split
  · exact Nat.le_succ _
  · split
    · next e ms1 heq =>
        have h := calculateConfigArray_buildCount env (recordBuild st.mod k) k bp options k'
        rw [heq] at h
        simp only [h, recordBuild, buildCount_append]
        exact Nat.add_le_add_left (buildCount_build_le k k') _
    · next configs ms1 heq =>
        have h := calculateConfigArray_buildCount env (recordBuild st.mod k) k bp options k'
        rw [heq] at h
        simp only [h, recordBuild, buildCount_append]
        exact Nat.add_le_add_left (buildCount_build_le k k') _

theorem C2_ignore_rebasing_witness :
    cliIgnoreLayers (C := Nat) ["proj", "sub"] ["proj", "sub"] (some ["dist/**", "!keep.js"])
        = [Layer.ignores ["dist/**", "!keep.js"]]
    ∧ cliIgnoreLayers (C := Nat) ["proj", "sub"] ["proj"] (some ["dist/**", "!keep.js"])
        = [Layer.ignores
            (["dist/**", "!keep.js"].map (rebasePattern (pathRelativeStr ["proj"] ["proj", "sub"])))] :=
  ⟨(C2_ignore_rebasing Nat ["proj", "sub"] ["proj"] ["dist/**", "!keep.js"] (by decide)).1,
   (C2_ignore_rebasing Nat ["proj", "sub"] ["proj"] ["dist/**", "!keep.js"] (by decide)).2.1
     (by decide)⟩

/-- C4: calling `loadConfigArrayForDirectory(D)` twice in sequence on the same
loader instance returns the same cached layer sequence both times without
re-invoking the module loader: the second call returns the identical result and
leaves the state — in particular the event log, which records every
`loadConfigFile` invocation — completely unchanged.  Both calls observe the
same environment, which is the claim's "modification time did not change
between the two calls" condition. -/
theorem C4_sequential_idempotence {C : Type} (env : Env C) (options : LoaderOptions C)
    (st : LoaderState C) (d : PathArg) (a : List (Layer C)) (s1 : LoaderState C)
    (h : ConfigLoader.loadConfigArrayForDirectory env options st d = (Except.ok a, s1)) :
    ConfigLoader.loadConfigArrayForDirectory env options s1 d = (Except.ok a, s1) := by
  unfold ConfigLoader.loadConfigArrayForDirectory at h ⊢
  rcases hl : ConfigLoader.locateConfigFileToUse env options st (resolvePath options.cwd d)
    with ⟨r, st'⟩
  rw [hl] at h
  rcases r with e | loc
  · simp at h
  · replace h : ConfigLoader.calculateConfigArrayCached env options st' loc.configFilePath
        loc.basePath = (Except.ok a, s1) := h
    have hlk : lookupA s1.configFilePaths (resolvePath options.cwd d) = some loc := by
      have h1 := locate_ok_lookup hl
      have h2 := calcCached_configFilePaths env options st' loc.configFilePath loc.basePath
      rw [h] at h2
      rw [h2]
      exact h1
    have ha : lookupA s1.configArrays loc.configFilePath = some a := calcCached_ok_lookup h
    have hloc2 : ConfigLoader.locateConfigFileToUse env options s1 (resolvePath options.cwd d)
        = (Except.ok loc, s1) := by
      unfold ConfigLoader.locateConfigFileToUse
      rw [hlk]
    rw [hloc2]
    exact calcCached_hit env options s1 loc.configFilePath loc.basePath a ha

theorem C4_sequential_idempotence_witness :
    ConfigLoader.loadConfigArrayForDirectory sampleEnv sampleOptions LoaderState.initial
        (PathArg.abs ["proj", "sub"]) = (Except.ok sampleLayers, sampleStateSub)
    ∧ ConfigLoader.loadConfigArrayForDirectory sampleEnv sampleOptions sampleStateSub
        (PathArg.abs ["proj", "sub"]) = (Except.ok sampleLayers, sampleStateSub) :=
  ⟨by decide,
   C4_sequential_idempotence sampleEnv sampleOptions LoaderState.initial
     (PathArg.abs ["proj", "sub"]) sampleLayers sampleStateSub (by decide)⟩

/-- C3: when two directories queried sequentially on one `ConfigLoader`
instance (no override configured) resolve to the same source file `p`, the
second `loadConfigArrayForDirectory` returns the very value cached under `p`
by the first, and the builder ran at most once for `p` across both calls. -/
theorem C3_shared_source_single_build {C : Type} (env : Env C) (options : LoaderOptions C)
    (st : LoaderState C) (d1 d2 : PathArg) (p : List String) (loc1 loc2 : ResolvedLocation)
    (a1 : List (Layer C)) (s1 : LoaderState C)
    (hsearch : options.configFilePath = OverrideSetting.search)
    (hloc1 : (ConfigLoader.locateConfigFileToUse env options st (resolvePath options.cwd d1)).1
        = Except.ok loc1)
    (hcf1 : loc1.configFilePath = some p)
    (h1 : ConfigLoader.loadConfigArrayForDirectory env options st d1 = (Except.ok a1, s1))
    (hloc2 : (ConfigLoader.locateConfigFileToUse env options s1 (resolvePath options.cwd d2)).1
        = Except.ok loc2)
    (hcf2 : loc2.configFilePath = some p) :
    (ConfigLoader.loadConfigArrayForDirectory env options s1 d2).1 = Except.ok a1
    ∧ lookupA ((ConfigLoader.loadConfigArrayForDirectory env options s1 d2).2).configArrays
        (some p) = some a1
    ∧ buildCount (some p)
        (((ConfigLoader.loadConfigArrayForDirectory env options s1 d2).2).mod).events
      ≤ buildCount (some p) st.mod.events + 1 := by
  clear hsearch
  unfold ConfigLoader.loadConfigArrayForDirectory at h1
  rcases hl1 : ConfigLoader.locateConfigFileToUse env options st (resolvePath options.cwd d1)
    with ⟨r1, st'⟩
  rw [hl1] at h1
  have hr1 : r1 = Except.ok loc1 := by
    rw [hl1] at hloc1
    exact hloc1
  subst hr1
  replace h1 : ConfigLoader.calculateConfigArrayCached env options st' loc1.configFilePath
      loc1.basePath = (Except.ok a1, s1) := h1
  rw [hcf1] at h1
  have ha1 : lookupA s1.configArrays (some p) = some a1 := calcCached_ok_lookup h1
  have hm1 : st'.mod = st.mod := by
    have h := locate_mod env options st (resolvePath options.cwd d1)
    rw [hl1] at h
    exact h
  have hb1 : buildCount (some p) s1.mod.events ≤ buildCount (some p) st.mod.events + 1 := by
    have hc := calcCached_buildCount env options st' (some p) loc1.basePath (some p)
    rw [h1] at hc
    rw [hm1] at hc
    exact hc
  unfold ConfigLoader.loadConfigArrayForDirectory
  rcases hl2 : ConfigLoader.locateConfigFileToUse env options s1 (resolvePath options.cwd d2)
    with ⟨r2, s1'⟩
  have hr2 : r2 = Except.ok loc2 := by
    rw [hl2] at hloc2
    exact hloc2
  subst hr2
  have hca : s1'.configArrays = s1.configArrays := by
    have h := locate_configArrays env options s1 (resolvePath options.cwd d2)
    rw [hl2] at h
    exact h
  have hm2 : s1'.mod = s1.mod := by
    have h := locate_mod env options s1 (resolvePath options.cwd d2)
    rw [hl2] at h
    exact h
  have hhit : ConfigLoader.calculateConfigArrayCached env options s1' loc2.configFilePath
      loc2.basePath = (Except.ok a1, s1') := by
    rw [hcf2]
    exact calcCached_hit env options s1' (some p) loc2.basePath a1 (by rw [hca]; exact ha1)
  refine ⟨?_, ?_, ?_⟩
  · show (ConfigLoader.calculateConfigArrayCached env options s1' loc2.configFilePath
        loc2.basePath).1 = Except.ok a1
    rw [hhit]
  · show lookupA ((ConfigLoader.calculateConfigArrayCached env options s1' loc2.configFilePath
        loc2.basePath).2).configArrays (some p) = some a1
    rw [hhit]
    rw [hca]
    exact ha1
  · show buildCount (some p) (((ConfigLoader.calculateConfigArrayCached env options s1'
        loc2.configFilePath loc2.basePath).2).mod).events
      ≤ buildCount (some p) st.mod.events + 1
    rw [hhit]
    rw [hm2]
    exact hb1

theorem C3_shared_source_single_build_witness :
    (ConfigLoader.loadConfigArrayForDirectory sampleEnv sampleOptions sampleStateA
        (PathArg.abs ["proj", "b"])).1 = Except.ok sampleLayers
    ∧ lookupA ((ConfigLoader.loadConfigArrayForDirectory sampleEnv sampleOptions sampleStateA
        (PathArg.abs ["proj", "b"])).2).configArrays
        (some ["proj", "eslint.config.js"]) = some sampleLayers
    ∧ buildCount (some ["proj", "eslint.config.js"])
        (((ConfigLoader.loadConfigArrayForDirectory sampleEnv sampleOptions sampleStateA
            (PathArg.abs ["proj", "b"])).2).mod).events
      ≤ buildCount (some ["proj", "eslint.config.js"]) (LoaderState.initial (C := Nat)).mod.events + 1 :=
  C3_shared_source_single_build sampleEnv sampleOptions LoaderState.initial
    (PathArg.abs ["proj", "a"]) (PathArg.abs ["proj", "b"])
    ["proj", "eslint.config.js"]
    ⟨some ["proj", "eslint.config.js"], ["proj"]⟩
    ⟨some ["proj", "eslint.config.js"], ["proj"]⟩
    sampleLayers sampleStateA
    (by decide) (by decide) (by decide) (by decide) (by decide) (by decide)

/-- C5: with an override config file path `P` configured, location resolution
returns `resolve(cwd, P)` with `basePath = cwd` for every directory, and
`findConfigFileForDirectory` returns `resolve(cwd, P)`, independent of where
the directory is.  The cache hypothesis says every `#configFilePaths` entry of
the instance holds that same location, which is the invariant an instance
constructed with override `P` maintains (and which holds vacuously for a fresh
instance). -/
theorem C5_override_path {C : Type} (env : Env C) (options : LoaderOptions C)
    (st : LoaderState C) (d : PathArg) (P : PathArg)
    (hov : options.configFilePath = OverrideSetting.path P)
    (hinv : ∀ k loc, lookupA st.configFilePaths k = some loc →
        loc = ⟨some (resolvePath options.cwd P), options.cwd⟩) :
    (ConfigLoader.locateConfigFileToUse env options st (resolvePath options.cwd d)).1
        = Except.ok ⟨some (resolvePath options.cwd P), options.cwd⟩
    ∧ (ConfigLoader.findConfigFileForDirectory env options st d).1
        = Except.ok (some (resolvePath options.cwd P)) := by
  have hloc : (ConfigLoader.locateConfigFileToUse env options st (resolvePath options.cwd d)).1
      = Except.ok ⟨some (resolvePath options.cwd P), options.cwd⟩ := by
    unfold ConfigLoader.locateConfigFileToUse
    rcases hl : lookupA st.configFilePaths (resolvePath options.cwd d) with _ | loc
    · rw [hov]
    · rw [hinv (resolvePath options.cwd d) loc hl]
  refine ⟨hloc, ?_⟩
  unfold ConfigLoader.findConfigFileForDirectory
  rcases hf : ConfigLoader.locateConfigFileToUse env options st (resolvePath options.cwd d)
    with ⟨r, st'⟩
  rw [hf] at hloc
  have hr : r = Except.ok ⟨some (resolvePath options.cwd P), options.cwd⟩ := hloc
  subst hr
  rfl

theorem C5_override_path_witness :
    (ConfigLoader.locateConfigFileToUse sampleEnv overridePathOptions LoaderState.initial
        (resolvePath overridePathOptions.cwd (PathArg.abs ["elsewhere", "deep"]))).1
      = Except.ok ⟨some (resolvePath overridePathOptions.cwd (PathArg.rel ["conf", "my.config.js"])),
          overridePathOptions.cwd⟩
    ∧ (ConfigLoader.findConfigFileForDirectory sampleEnv overridePathOptions LoaderState.initial
        (PathArg.abs ["elsewhere", "deep"])).1
      = Except.ok (some (resolvePath overridePathOptions.cwd (PathArg.rel ["conf", "my.config.js"]))) :=
  C5_override_path sampleEnv overridePathOptions LoaderState.initial
    (PathArg.abs ["elsewhere", "deep"]) (PathArg.rel ["conf", "my.config.js"])
    (by decide)
    (by intro k loc h; simp [lookupA] at h)

/-- C6: with the config file disabled (`configFilePath: false`), location
resolution yields no source path (`undefined`) with `basePath = cwd`,
`findConfigFileForDirectory` returns none, and the layer sequence built for a
source-path-free location contains no file-derived layer — the builder never
invokes the module loader (the state is untouched) and, when normalization
passes, produces exactly base ++ defaults ++ CLI-ignores ++ overrides. -/
theorem C6_disabled_no_file_layer {C : Type} (env : Env C) (options : LoaderOptions C)
    (st : LoaderState C) (d : PathArg) (ms : ModState) (basePath : List String)
    (hov : options.configFilePath = OverrideSetting.disabled)
    (hinv : ∀ k loc, lookupA st.configFilePaths k = some loc → loc = ⟨none, options.cwd⟩) :
    (ConfigLoader.locateConfigFileToUse env options st (resolvePath options.cwd d)).1
        = Except.ok ⟨none, options.cwd⟩
    ∧ (ConfigLoader.findConfigFileForDirectory env options st d).1 = Except.ok none
    ∧ (calculateConfigArray env ms none basePath options).2 = ms
    ∧ (env.normalizeOk (specLayerSequence options none basePath) = true →
        calculateConfigArray env ms none basePath options
          = (Except.ok (specLayerSequence options none basePath), ms)) := by
  have hloc : (ConfigLoader.locateConfigFileToUse env options st (resolvePath options.cwd d)).1
      = Except.ok ⟨none, options.cwd⟩ := by
    unfold ConfigLoader.locateConfigFileToUse
    rcases hl : lookupA st.configFilePaths (resolvePath options.cwd d) with _ | loc
    · rw [hov]
    · rw [hinv (resolvePath options.cwd d) loc hl]
  refine ⟨hloc, ?_, ?_, ?_⟩
  · unfold ConfigLoader.findConfigFileForDirectory
    rcases hf : ConfigLoader.locateConfigFileToUse env options st (resolvePath options.cwd d)
      with ⟨r, st'⟩
    rw [hf] at hloc
    have hr : r = Except.ok ⟨none, options.cwd⟩ := hloc
    subst hr
    rfl
  · simp only [calculateConfigArray]
    split <;> rfl
  · intro h
    simp [calculateConfigArray, assembleLayers_eq_spec, h]

theorem C6_disabled_no_file_layer_witness :
    (ConfigLoader.locateConfigFileToUse sampleEnv disabledOptions LoaderState.initial
        (resolvePath disabledOptions.cwd (PathArg.abs ["proj", "sub"]))).1
      = Except.ok ⟨none, disabledOptions.cwd⟩
    ∧ (ConfigLoader.findConfigFileForDirectory sampleEnv disabledOptions LoaderState.initial
        (PathArg.abs ["proj", "sub"])).1 = Except.ok none
    ∧ (calculateConfigArray sampleEnv ModState.initial none ["proj"] disabledOptions).2
        = ModState.initial
    ∧ (sampleEnv.normalizeOk (specLayerSequence disabledOptions none ["proj"]) = true →
        calculateConfigArray sampleEnv ModState.initial none ["proj"] disabledOptions
          = (Except.ok (specLayerSequence disabledOptions none ["proj"]), ModState.initial)) :=
  C6_disabled_no_file_layer sampleEnv disabledOptions LoaderState.initial
    (PathArg.abs ["proj", "sub"]) ModState.initial ["proj"]
    (by decide)
    (by intro k loc h; simp [lookupA] at h)

/-- When no candidate config filename exists in any ancestor directory
(inclusive), the modelled upward search finds nothing. -/
theorem findUpRev_eq_none {files : List String → Bool} {rl : List String}
    (h : ∀ a ∈ ancestorsRev rl, ∀ name ∈ FLAT_CONFIG_FILENAMES, files (a ++ [name]) = false) :
    findUpRev files rl = none := by
  induction rl with
  | nil =>
      have hf : FLAT_CONFIG_FILENAMES.find? (fun name => files [name]) = none := by
        apply List.find?_eq_none.mpr
        intro x hx
        have hx0 := h [] (by simp [ancestorsRev]) x hx
        simp at hx0
        simp [hx0]
      simp [findUpRev, hf]
  | cons c rest ih =>
      have hf : FLAT_CONFIG_FILENAMES.find?
          (fun name => files (rest.reverse ++ [c, name])) = none := by
        apply List.find?_eq_none.mpr
        intro x hx
        have hx0 := h ((c :: rest).reverse) (by simp [ancestorsRev]) x hx
        simp at hx0
        simp [hx0]
      have hrest : ∀ a ∈ ancestorsRev rest, ∀ name ∈ FLAT_CONFIG_FILENAMES,
          files (a ++ [name]) = false := by
        intro a ha name hn
        exact h a (by simp [ancestorsRev, ha]) name hn
      simp [findUpRev, hf, ih hrest]

/-- C7: when the upward search through every ancestor directory (inclusive)
finds none of the candidate config filenames, and the loader is in search mode
(no override path, not disabled), location resolution fails with the
`config-file-missing` error, leaving the state unchanged. -/
theorem C7_search_exhaustion {C : Type} (env : Env C) (options : LoaderOptions C)
    (st : LoaderState C) (fromDirectory : List String)
    (hsearch : options.configFilePath = OverrideSetting.search)
    (hmiss : lookupA st.configFilePaths fromDirectory = none)
    (hnone : ∀ a ∈ ancestors fromDirectory, ∀ name ∈ FLAT_CONFIG_FILENAMES,
        env.fileExists (a ++ [name]) = false) :
    ConfigLoader.locateConfigFileToUse env options st fromDirectory
      = (Except.error Err.configFileMissing, st) := by
  have hfu : findUpFrom env.fileExists fromDirectory = none := findUpRev_eq_none hnone
  unfold ConfigLoader.locateConfigFileToUse
  rw [hmiss, hsearch, hfu]

theorem C7_search_exhaustion_witness :
    ConfigLoader.locateConfigFileToUse failEnv sampleOptions (LoaderState.initial (C := Nat))
        ["a", "b", "c"]
      = (Except.error Err.configFileMissing, LoaderState.initial) :=
  C7_search_exhaustion failEnv sampleOptions LoaderState.initial ["a", "b", "c"]
    (by decide) (by decide) (by decide)

/-- C9: failures are atomic with respect to the loader's caches.  A failing
location resolution returns the state unchanged; a failing build leaves both
the `#configArrays` and `#configFilePaths` caches exactly as they were (in
particular entries for other keys are untouched), writes no entry for the
failing key, and a later call for the same key re-runs the build and succeeds
when the (possibly changed) environment now lets the build succeed. -/
theorem C9_failure_atomicity {C : Type} (env env2 : Env C) (options : LoaderOptions C)
    (st : LoaderState C) (d : List String) (k : Option (List String)) (bp : List String)
    (e1 e2 : Err) (st1 st2 : LoaderState C) (a : List (Layer C)) (ms2 : ModState)
    (hloc : ConfigLoader.locateConfigFileToUse env options st d = (Except.error e1, st1))
    (hcalc : ConfigLoader.calculateConfigArrayCached env options st k bp
        = (Except.error e2, st2))
    (hretry : calculateConfigArray env2 (recordBuild st2.mod k) k bp options
        = (Except.ok a, ms2)) :
    st1 = st
    ∧ st2.configArrays = st.configArrays
    ∧ st2.configFilePaths = st.configFilePaths
    ∧ lookupA st2.configArrays k = none
    ∧ (ConfigLoader.calculateConfigArrayCached env2 options st2 k bp).1 = Except.ok a := by
  have h1 := locate_error_state hloc
  have h2 := calcCached_error hcalc
  have hk : lookupA st2.configArrays k = none := by
    rw [h2.1]
    exact h2.2.2
  refine ⟨h1, h2.1, h2.2.1, hk, ?_⟩
  unfold ConfigLoader.calculateConfigArrayCached
  rw [hk, hretry]

theorem C9_failure_atomicity_witness :
    (LoaderState.initial (C := Nat)) = LoaderState.initial
    ∧ failedBuildState.configArrays = (LoaderState.initial (C := Nat)).configArrays
    ∧ failedBuildState.configFilePaths = (LoaderState.initial (C := Nat)).configFilePaths
    ∧ lookupA failedBuildState.configArrays (some ["proj", "eslint.config.js"]) = none
    ∧ (ConfigLoader.calculateConfigArrayCached sampleEnv sampleOptions failedBuildState
        (some ["proj", "eslint.config.js"]) ["proj"]).1 = Except.ok sampleLayers :=
  C9_failure_atomicity failEnv sampleEnv sampleOptions LoaderState.initial ["x"]
    (some ["proj", "eslint.config.js"]) ["proj"]
    Err.configFileMissing Err.statFailure LoaderState.initial failedBuildState
    sampleLayers retriedModState
    (by decide) (by decide) (by decide)

/-- C10: after a location has been resolved for a directory but no layer
sequence was ever built for its source path, `ConfigLoader`'s synchronous
`getCachedConfigArrayForDirectory` returns `undefined` (`Except.ok none`)
rather than raising, while `LegacyConfigLoader`'s raises the not-found error in
the same situation. -/
theorem C10_getCached_divergence {C : Type} (env : Env C) (options : LoaderOptions C)
    (st : LoaderState C) (lst : LegacyState C) (d : PathArg)
    (cfp lcfp : Option (List String)) (st' : LoaderState C) (lst' : LegacyState C)
    (hfind : ConfigLoader.findConfigFileForDirectory env options st d = (Except.ok cfp, st'))
    (hnb : lookupA st'.configArrays cfp = none)
    (hlfind : LegacyConfigLoader.findConfigFileForDirectory env options lst d
        = (Except.ok lcfp, lst'))
    (hlnb : lst'.configArray = none) :
    ConfigLoader.getCachedConfigArrayForDirectory options st' d = Except.ok none
    ∧ LegacyConfigLoader.getCachedConfigArrayForDirectory lst' d
        = Except.error Err.notFound := by
  constructor
  · unfold ConfigLoader.findConfigFileForDirectory at hfind
    rcases hl : ConfigLoader.locateConfigFileToUse env options st (resolvePath options.cwd d)
      with ⟨r, st''⟩
    rw [hl] at hfind
    rcases r with e | loc
    · simp at hfind
    · replace hfind : (Except.ok loc.configFilePath, st'') = (Except.ok cfp, st') := hfind
      rw [Prod.mk.injEq] at hfind
      obtain ⟨hA, hB⟩ := hfind
      have hc : loc.configFilePath = cfp := Except.ok.inj hA
      have hlk := locate_ok_lookup hl
      rw [hB] at hlk
      unfold ConfigLoader.getCachedConfigArrayForDirectory
      rw [hlk]
      show Except.ok (lookupA st'.configArrays loc.configFilePath) = Except.ok none
      rw [hc, hnb]
  · unfold LegacyConfigLoader.getCachedConfigArrayForDirectory
    rw [hlnb]

/-! Trace lemmas for the `#configFilePaths` cache. -/

theorem locate_cfp_isSome {C : Type} (env : Env C) (options : LoaderOptions C)
    (st : LoaderState C) (d k : List String) :
    (lookupA ((ConfigLoader.locateConfigFileToUse env options st d).2).configFilePaths k).isSome
        = true
    ↔ ((lookupA st.configFilePaths k).isSome = true
        ∨ (d = k
            ∧ exceptOk (ConfigLoader.locateConfigFileToUse env options st d).1 = true)) := by
  unfold ConfigLoader.locateConfigFileToUse
  rcases hl : lookupA st.configFilePaths d with _ | loc
  · rcases ho : options.configFilePath with P | _ | _
    · by_cases hdk : d = k
      · subst hdk
        simp [lookupA_insertA, hl, exceptOk]
      · simp [lookupA_insertA, hdk, exceptOk]
    · by_cases hdk : d = k
      · subst hdk
        simp [lookupA_insertA, hl, exceptOk]
      · simp [lookupA_insertA, hdk, exceptOk]
    · rcases hf : findUpFrom env.fileExists d with _ | found
      · simp [exceptOk]
      · by_cases hdk : d = k
        · subst hdk
          simp [lookupA_insertA, hl, exceptOk]
        · simp [lookupA_insertA, hdk, exceptOk]
  · by_cases hdk : d = k
    · subst hdk
      simp [hl, exceptOk]
    · simp [hdk, exceptOk]

theorem load_cfp {C : Type} (env : Env C) (options : LoaderOptions C)
    (st : LoaderState C) (d : PathArg) :
    ((ConfigLoader.loadConfigArrayForDirectory env options st d).2).configFilePaths
      = ((ConfigLoader.locateConfigFileToUse env options st
          (resolvePath options.cwd d)).2).configFilePaths := by
  unfold ConfigLoader.loadConfigArrayForDirectory
  rcases hl : ConfigLoader.locateConfigFileToUse env options st (resolvePath options.cwd d)
    with ⟨r, st'⟩
  rcases r with e | loc
  · rfl
  · exact calcCached_configFilePaths env options st' loc.configFilePath loc.basePath

theorem find_cfp {C : Type} (env : Env C) (options : LoaderOptions C)
    (st : LoaderState C) (d : PathArg) :
    ((ConfigLoader.findConfigFileForDirectory env options st d).2).configFilePaths
      = ((ConfigLoader.locateConfigFileToUse env options st
          (resolvePath options.cwd d)).2).configFilePaths := by
  unfold ConfigLoader.findConfigFileForDirectory
  rcases hl : ConfigLoader.locateConfigFileToUse env options st (resolvePath options.cwd d)
    with ⟨r, st'⟩
  rcases r with e | loc <;> rfl

theorem stepCall_cfp_isSome {C : Type} (options : LoaderOptions C) (st : LoaderState C)
    (c : ApiCall C) (k : List String) :
    (lookupA (stepCall options st c).configFilePaths k).isSome = true
    ↔ ((lookupA st.configFilePaths k).isSome = true ∨ callResolves options st c k) := by
  rcases c with ⟨env, d⟩ | ⟨env, d⟩
  · simp only [stepCall]
    rw [load_cfp]
    simpa [callResolves, ApiCall.dirPath, ApiCall.env] using
      locate_cfp_isSome env options st (resolvePath options.cwd d) k
  · simp only [stepCall]
    rw [find_cfp]
    simpa [callResolves, ApiCall.dirPath, ApiCall.env] using
      locate_cfp_isSome env options st (resolvePath options.cwd d) k

theorem runTrace_cfp_isSome {C : Type} (options : LoaderOptions C) (tr : List (ApiCall C))
    (st : LoaderState C) (k : List String) :
    (lookupA (runTrace options st tr).configFilePaths k).isSome = true
    ↔ ((lookupA st.configFilePaths k).isSome = true ∨ TraceResolves options st tr k) := by
  induction tr generalizing st with
  | nil => simp [runTrace, TraceResolves]
  | cons c rest ih =>
      simp only [runTrace, TraceResolves]
      rw [ih (stepCall options st c), stepCall_cfp_isSome]
      tauto

/-- C8 (amended): on a fresh `ConfigLoader` instance,
`getCachedConfigArrayForDirectory(D)` fails with the not-found error if and
only if no prior `loadConfigArrayForDirectory`/`findConfigFileForDirectory`
call of the trace successfully resolved the location for D's own absolute
directory.  Calls for an ancestor directory — even one sharing D's resolved
source file — populate the `#configFilePaths` cache only under the ancestor's
key and do not prevent the not-found error for D. -/
theorem C8_notFound_iff_never_resolved {C : Type} (options : LoaderOptions C)
    (tr : List (ApiCall C)) (d : PathArg) :
    ConfigLoader.getCachedConfigArrayForDirectory options
        (runTrace options LoaderState.initial tr) d = Except.error Err.notFound
    ↔ ¬ TraceResolves options LoaderState.initial tr (resolvePath options.cwd d) := by
  have h := runTrace_cfp_isSome options tr LoaderState.initial (resolvePath options.cwd d)
  unfold ConfigLoader.getCachedConfigArrayForDirectory
  rcases hl : lookupA (runTrace options LoaderState.initial tr).configFilePaths
      (resolvePath options.cwd d) with _ | loc
  · rw [hl] at h
    simp [LoaderState.initial, lookupA] at h
    simp
    exact h
  · rw [hl] at h
    simp [LoaderState.initial, lookupA] at h
    simp
    exact h

/-- C8 counterexample to the claim as stated: on a fresh instance,
`findConfigFileForDirectory` is called for `/proj` — an ancestor of
`/proj/sub`, and both directories' upward searches resolve to the same source
file `/proj/eslint.config.js` — yet `getCachedConfigArrayForDirectory` for
`/proj/sub` still raises the not-found error, where the claim's "otherwise it
does not raise NotFound" predicts no error. -/
theorem C8_counterexample :
    (ConfigLoader.findConfigFileForDirectory sampleEnv sampleOptions LoaderState.initial
        (PathArg.abs ["proj"])).1 = Except.ok (some ["proj", "eslint.config.js"])
    ∧ findUpFrom sampleEnv.fileExists ["proj", "sub"] = some ["proj", "eslint.config.js"]
    ∧ findUpFrom sampleEnv.fileExists ["proj"] = some ["proj", "eslint.config.js"]
    ∧ ConfigLoader.getCachedConfigArrayForDirectory sampleOptions
        ((ConfigLoader.findConfigFileForDirectory sampleEnv sampleOptions LoaderState.initial
            (PathArg.abs ["proj"])).2)
        (PathArg.abs ["proj", "sub"]) = Except.error Err.notFound := by
  decide

theorem C10_getCached_divergence_witness :
    ConfigLoader.getCachedConfigArrayForDirectory sampleOptions findOnlyState
        (PathArg.abs ["proj"]) = Except.ok none
    ∧ LegacyConfigLoader.getCachedConfigArrayForDirectory legacyFindOnlyState
        (PathArg.abs ["proj"]) = Except.error Err.notFound :=
  C10_getCached_divergence sampleEnv sampleOptions LoaderState.initial LegacyState.initial
    (PathArg.abs ["proj"])
    (some ["proj", "eslint.config.js"]) (some ["proj", "eslint.config.js"])
    findOnlyState legacyFindOnlyState
    (by decide) (by decide) (by decide) (by decide)

end ESLintConfigLoader
